import Mathlib

/- Formal model of the routing proxy and process supervisor of the realm
   development-environment multiplexer (src/proxy/server.rs and
   src/process/manager.rs), with proofs of its routing and lifecycle
   properties. Rust strings are Lean strings; hash maps are association
   lists in iteration order; OS effects (spawn, kill, wait) are explicit
   oracle arguments. -/

/-- Byte size of a character in UTF-8, as counted by Rust `str::len`. -/
def charSize (c : Char) : Nat :=
  if c.toNat < 128 then 1
  else if c.toNat < 2048 then 2
  else if c.toNat < 65536 then 3
  else 4

/-- Model of Rust `str::len`: the UTF-8 byte length of the string. -/
def strLen (s : String) : Nat :=
  s.data.foldl (fun n c => n + charSize c) 0

/-- Model of Rust `str::contains(char)`. -/
def strContains (s : String) (c : Char) : Bool :=
  s.data.contains c

/-- Model of Rust `str::ends_with(char)`: the last character equals `c`. -/
def strEndsWith (s : String) (c : Char) : Bool :=
  match s.data.getLast? with
  | some d => d == c
  | none => false

/-- Model of Rust `str::trim_end_matches(char)`: drop every trailing copy of `c`. -/
def trimEndMatches (s : String) (c : Char) : String :=
  String.mk ((s.data.reverse.dropWhile (fun d => d == c)).reverse)

/-- Model of Rust `str::starts_with(&str)`. -/
def strStartsWith (s p : String) : Bool :=
  p.data.isPrefixOf s.data

/-- Model of `ProcessConfig` (src/config/process.rs). Ports are naturals. -/
structure ProcessConfig where
  command : String
  port : Option Nat
  routes : List String
  working_directory : Option String
deriving DecidableEq

/-- Model of `RealmConfig` (src/config/realm.rs); the `processes` hash map is
an association list in the map's iteration order. -/
structure RealmConfig where
  processes : List (String × ProcessConfig)
  proxy_port : Nat
deriving DecidableEq

/-- Model of `RouteEntry` (src/proxy/server.rs). -/
structure RouteEntry where
  pattern : String
  process : String
  port : Nat
deriving DecidableEq

/-- Emission phase of `build_route_map` (src/proxy/server.rs lines 42-52):
one `RouteEntry` per (process, route) pair, the port defaulting to 3000,
in registry iteration order. -/
def emitRoutes (config : RealmConfig) : List RouteEntry :=
  config.processes.flatMap (fun p =>
    p.2.routes.map (fun route =>
      { pattern := route, process := p.1, port := p.2.port.getD 3000 }))

/-- Comparator passed to `routes.sort_by` in `build_route_map` (lines 54-63):
non-wildcard patterns first, then longer patterns first. -/
def routeCmp (a b : RouteEntry) : Ordering :=
  match strContains a.pattern '*', strContains b.pattern '*' with
  | false, true => Ordering.lt
  | true, false => Ordering.gt
  | _, _ => compare (strLen b.pattern) (strLen a.pattern)

/-- Stable insertion of an entry into a list sorted by `routeCmp`. -/
def insertRoute (x : RouteEntry) : List RouteEntry → List RouteEntry
  | [] => [x]
  | y :: ys =>
    if routeCmp x y = Ordering.gt then y :: insertRoute x ys else x :: y :: ys

/-- Stable sort by `routeCmp`. Rust `sort_by` is a stable sort, and for the
total preorder induced by `routeCmp` the stable sort result is unique, so
stable insertion sort computes the same list. -/
def sortRoutes : List RouteEntry → List RouteEntry
  | [] => []
  | x :: xs => insertRoute x (sortRoutes xs)

/-- Model of `ProxyServer::build_route_map` (src/proxy/server.rs lines 39-66). -/
def build_route_map (config : RealmConfig) : List RouteEntry :=
  sortRoutes (emitRoutes config)

/-- Projection returned by the matcher: `(entry.process.clone(), entry.port)`. -/
def entryData (e : RouteEntry) : String × Nat :=
  (e.process, e.port)

/-- Model of Rust `Option::or`. -/
def optionOr {α : Type} (a b : Option α) : Option α :=
  match a with
  | some x => some x
  | none => b

/-- Exact-match test of `find_matching_route` (line 158): a non-wildcard
pattern equal to the request path. -/
def isExactB (path : String) (e : RouteEntry) : Bool :=
  !strContains e.pattern '*' && e.pattern == path

/-- Default-route test of `find_matching_route` (line 162): the literal
pattern "/". -/
def isDefaultB (e : RouteEntry) : Bool :=
  e.pattern == "/"

/-- Wildcard-match test of `find_matching_route` (lines 166-168): the pattern
ends with `*` and the path starts with the pattern minus its trailing stars. -/
def wildMatchB (path : String) (e : RouteEntry) : Bool :=
  strEndsWith e.pattern '*' && strStartsWith path (trimEndMatches e.pattern '*')

/-- Loop of `ProxyServer::find_matching_route`, with the `wildcard_match` and
`default_route` accumulators explicit; an exact match returns immediately,
the first wildcard match and the first "/" entry are retained. -/
def findGo (path : String) :
    List RouteEntry → Option (String × Nat) → Option (String × Nat) →
    Option (String × Nat)
  | [], w, d => optionOr w d
  | e :: rest, w, d =>
    if isExactB path e then some (entryData e)
    else
      findGo path rest
        (if wildMatchB path e && w.isNone then some (entryData e) else w)
        (if isDefaultB e && d.isNone then some (entryData e) else d)

/-- Model of `ProxyServer::find_matching_route` (src/proxy/server.rs lines
153-175). -/
def find_matching_route (path : String) (route_map : List RouteEntry) :
    Option (String × Nat) :=
  findGo path route_map none none

/-- Model of an OS child handle (std::process::Child): `id` models
`Child::id()`, the stored process id of the spawned child, and the ghost
flag `alive` records whether the operating system still reports the process
as running. The translated code never reads `alive`; it is model state used
to state liveness claims. -/
structure Child where
  id : Nat
  alive : Bool
deriving DecidableEq

/-- Model of `ProcessInfo` (src/process/info.rs). -/
structure ProcessInfo where
  name : String
  config : ProcessConfig
  child : Option Child
  port : Option Nat
deriving DecidableEq

/-- Registry of the process manager: the `HashMap<String, ProcessInfo>`
modelled as an association list in iteration order. -/
abbrev Registry : Type := List (String × ProcessInfo)

/-- Model of `processes.get(name)` / `get_mut(name)` lookups. -/
def lookupProc (reg : Registry) (name : String) : Option ProcessInfo :=
  match reg.find? (fun p => p.1 == name) with
  | some p => some p.2
  | none => none

/-- Model of in-place mutation through `processes.get_mut(name)`. -/
def updateProc (reg : Registry) (name : String) (info : ProcessInfo) : Registry :=
  reg.map (fun p => if p.1 == name then (p.1, info) else p)

/-- Errors raised by the process manager (anyhow errors, by message). -/
inductive ProcError where
  | notFound : String → ProcError
  | emptyCommand : String → ProcError
  | startFailed : String → ProcError
deriving DecidableEq

/-- Splitting loop for `split_whitespace`: accumulates the current word
(reversed) and emits finished words at whitespace boundaries. -/
def splitWsGo : List Char → List Char → List (List Char)
  | [], acc => [acc.reverse]
  | c :: cs, acc =>
    if c.isWhitespace then acc.reverse :: splitWsGo cs []
    else splitWsGo cs (c :: acc)

/-- Model of Rust `command.split_whitespace().collect::<Vec<_>>()`: the
maximal runs of non-whitespace characters, empty runs discarded. -/
def split_whitespace (s : String) : List String :=
  ((splitWsGo s.data []).filter (fun w => !w.isEmpty)).map String.mk

/-- Model of `ProcessManager::start_process` (src/process/manager.rs lines
36-77). The OS spawn is the oracle argument `spawn`: `none` means the spawn
fails, `some c` that it returns child `c`. The third component reports
whether a spawn was attempted. -/
def start_process (spawn : Option Child) (reg : Registry) (name : String) :
    Except ProcError Unit × Registry × Bool :=
  match lookupProc reg name with
  | none => (Except.error (ProcError.notFound name), reg, false)
  | some info =>
    if info.child.isSome then (Except.ok (), reg, false)
    else
      let parts := split_whitespace info.config.command
      if parts.isEmpty then (Except.error (ProcError.emptyCommand name), reg, false)
      else
        match spawn with
        | none => (Except.error (ProcError.startFailed name), reg, true)
        | some c =>
          (Except.ok (), updateProc reg name { info with child := some c }, true)

/-- Model of `ProcessManager::stop_process` (src/process/manager.rs lines
79-96). `killOk` and `waitOk` are the outcomes of `child.kill()` and
`child.wait()`; the code binds both to `_`, discarding them. -/
def stop_process (killOk waitOk : Bool) (reg : Registry) (name : String) :
    Except ProcError Unit × Registry :=
  match lookupProc reg name with
  | none => (Except.error (ProcError.notFound name), reg)
  | some info =>
    match info.child with
    | none => (Except.ok (), reg)
    | some _ =>
      let _ := killOk
      let _ := waitOk
      (Except.ok (), updateProc reg name { info with child := none })

/-- Loop of `start_all`: starts every registered name in turn; a per-process
error is logged and discarded, never aborting the iteration. `spawns i` is
the spawn outcome offered to the i-th attempt. -/
def startAllGo (spawns : Nat → Option Child) :
    List String → Nat → Registry → Registry
  | [], _, reg => reg
  | n :: rest, i, reg =>
    startAllGo spawns rest (i + 1) (start_process (spawns i) reg n).2.1

/-- Model of `ProcessManager::start_all` (src/process/manager.rs lines
103-116): iterate over all names, discard per-name errors, return `Ok(())`. -/
def start_all (spawns : Nat → Option Child) (reg : Registry) :
    Except ProcError Unit × Registry :=
  (Except.ok (), startAllGo spawns (reg.map Prod.fst) 0 reg)

/-- Loop of `stop_all`: stops every registered name in turn, discarding
per-process errors. `ora i` gives the kill and wait outcomes for name i. -/
def stopAllGo (ora : Nat → Bool × Bool) :
    List String → Nat → Registry → Registry
  | [], _, reg => reg
  | n :: rest, i, reg =>
    stopAllGo ora rest (i + 1) (stop_process (ora i).1 (ora i).2 reg n).2

/-- Model of `ProcessManager::stop_all` (src/process/manager.rs lines
118-131): iterate over all names, discard per-name errors, return `Ok(())`. -/
def stop_all (ora : Nat → Bool × Bool) (reg : Registry) :
    Except ProcError Unit × Registry :=
  (Except.ok (), stopAllGo ora (reg.map Prod.fst) 0 reg)

/-- Model of `ProcessManager::is_running` (src/process/manager.rs lines
133-145): the code tests only `child.id() != 0` and never consults the OS
about whether the process is still alive. -/
def is_running (reg : Registry) (name : String) : Bool :=
  match lookupProc reg name with
  | some info =>
    match info.child with
    | some child => child.id != 0
    | none => false
  | none => false

/-- Model of `ProcessManager::load_processes` (src/process/manager.rs lines
19-34): clear, then insert one handle-less entry per configured process. -/
def load_processes (config : RealmConfig) : Registry :=
  config.processes.map (fun p =>
    (p.1, { name := p.1, config := p.2, child := none, port := p.2.port }))

/- Concrete fixtures used by counterexamples and witnesses. -/

/-- Configuration with a generic and a more specific wildcard route, the
generic one first in registry iteration order. -/
def cfgSortDemo : RealmConfig :=
  { processes :=
      [("api_generic",
        { command := "cmd", port := some 5000, routes := ["/api/*"],
          working_directory := none }),
       ("api_users",
        { command := "cmd", port := some 5001, routes := ["/api/users/*"],
          working_directory := none })],
    proxy_port := 8000 }

/-- Configuration in which two distinct processes register the same literal
pattern "/x". -/
def cfgShared : RealmConfig :=
  { processes :=
      [("a",
        { command := "cmd", port := some 1, routes := ["/x"],
          working_directory := none }),
       ("b",
        { command := "cmd", port := some 2, routes := ["/x"],
          working_directory := none })],
    proxy_port := 8000 }

/-- Configuration with a single process registering the literal pattern "/x". -/
def cfgSingle : RealmConfig :=
  { processes :=
      [("a",
        { command := "cmd", port := some 7, routes := ["/x"],
          working_directory := none })],
    proxy_port := 8000 }

/-- Process configuration fixture with the given command. -/
def cfgCmd (cmd : String) : ProcessConfig :=
  { command := cmd, port := some 4000, routes := [], working_directory := none }

/-- Registry entry that was never started (no handle). -/
def infoNoChild : ProcessInfo :=
  { name := "a", config := cfgCmd "run x", child := none, port := some 4000 }

/-- Registry entry with a live handle. -/
def infoWithChild : ProcessInfo :=
  { name := "a", config := cfgCmd "run x",
    child := some { id := 7, alive := true }, port := some 4000 }

/-- Registry entry whose configured command is the empty string. -/
def infoEmptyCmd : ProcessInfo :=
  { name := "bad", config := cfgCmd "", child := none, port := some 4000 }

/-- One-process registry, process never started. -/
def regStopped : Registry := [("a", infoNoChild)]

/-- One-process registry, process with a live handle. -/
def regRunning : Registry := [("a", infoWithChild)]

/-- One-process registry, process with an empty command and no handle. -/
def regEmptyCmd : Registry := [("bad", infoEmptyCmd)]

/-- Registry whose only entry holds a handle to a child the OS reports as
dead (exited), with the nonzero pid still stored in the handle. -/
def regDeadChild : Registry :=
  [("api",
    { name := "api", config := cfgCmd "run x",
      child := some { id := 4242, alive := false }, port := some 4000 })]

/-- Two-process registry for the bulk-operation demonstration: the first
process cannot start (empty command), the second can. -/
def regBulk : Registry :=
  [("bad", infoEmptyCmd),
   ("good",
    { name := "good", config := cfgCmd "run x", child := none,
      port := some 4001 })]

/- Sanity replicas of the Rust unit tests in src/proxy/server.rs. -/

example :
    find_matching_route "/api/users"
      (build_route_map
        { processes :=
            [("api_specific",
              { command := "cmd", port := some 4001, routes := ["/api/users"],
                working_directory := none }),
             ("api_wildcard",
              { command := "cmd", port := some 4002, routes := ["/api/*"],
                working_directory := none })],
          proxy_port := 8000 }) = some ("api_specific", 4001) := by
  decide

example :
    find_matching_route "/api/users/42"
      (build_route_map
        { processes :=
            [("api_generic",
              { command := "cmd", port := some 5000, routes := ["/api/*"],
                working_directory := none }),
             ("api_users",
              { command := "cmd", port := some 5001, routes := ["/api/users/*"],
                working_directory := none })],
          proxy_port := 8000 }) = some ("api_users", 5001) := by
  decide

example :
    find_matching_route "/unknown"
      (build_route_map
        { processes :=
            [("frontend",
              { command := "cmd", port := some 3000, routes := ["/"],
                working_directory := none })],
          proxy_port := 8000 }) = some ("frontend", 3000) := by
  decide

example :
    find_matching_route "/other"
      (build_route_map
        { processes :=
            [("api",
              { command := "cmd", port := some 4000, routes := ["/api"],
                working_directory := none })],
          proxy_port := 8000 }) = none := by
  decide

/- Helper lemmas about the matcher loop. -/

/-- Rust `Option::or` with `None` on the right is the identity. -/
theorem optionOr_none_right {α : Type} (a : Option α) : optionOr a none = a := by
  cases a <;> rfl

/-- When the route table holds an exact match for the path, the loop returns
the data of the first such entry, whatever the accumulators hold. -/
theorem findGo_exact (path : String) :
    ∀ (l : List RouteEntry) (e₀ : RouteEntry),
      l.find? (isExactB path) = some e₀ →
      ∀ w d, findGo path l w d = some (entryData e₀) := by
  intro l
  induction l with
  | nil => intro e₀ h; simp [List.find?] at h
  | cons e rest ih =>
    intro e₀ h w d
    by_cases hc : isExactB path e = true
    · rw [List.find?_cons_of_pos _ hc] at h
      cases h
      simp [findGo, hc]
    · have hc' : isExactB path e = false := by simpa using hc
      rw [List.find?_cons_of_neg] at h
      · simp [findGo, hc']
        exact ih e₀ h _ _
      · simp [hc']

/-- When the route table holds no exact match for the path, the loop returns
the first wildcard match, else the first default entry, composed with the
incoming accumulators. -/
theorem findGo_noExact (path : String) :
    ∀ (l : List RouteEntry), (∀ e ∈ l, isExactB path e = false) →
      ∀ w d, findGo path l w d =
        optionOr (optionOr w ((l.find? (wildMatchB path)).map entryData))
                 (optionOr d ((l.find? isDefaultB).map entryData)) := by
  intro l
  induction l with
  | nil =>
    intro _ w d
    simp [findGo, List.find?, optionOr_none_right]
  | cons e rest ih =>
    intro h w d
    have he : isExactB path e = false := h e (by simp)
    have hrest : ∀ x ∈ rest, isExactB path x = false := by
      intro x hx; exact h x (by simp [hx])
    simp only [findGo, he, Bool.false_eq_true, if_false]
    rw [ih hrest]
    cases hw : wildMatchB path e <;> cases hd : isDefaultB e <;>
      cases w <;> cases d <;>
        simp [List.find?_cons, hw, hd, optionOr]

/-- C1: for every route table and request path P, if some route entry has a
non-wildcard pattern literally equal to P, the matcher returns the process
and port of such an entry (the first one), even when wildcard entries from
other processes also match P. -/
theorem exact_match_always_wins (route_map : List RouteEntry) (path : String)
    (e₀ : RouteEntry) (h : route_map.find? (isExactB path) = some e₀) :
    e₀ ∈ route_map ∧ isExactB path e₀ = true ∧
      find_matching_route path route_map = some (e₀.process, e₀.port) :=
  ⟨List.mem_of_find?_eq_some h, List.find?_some h,
    findGo_exact path route_map e₀ h none none⟩

/-- C1 witness: in a table where a wildcard registered to a different process
precedes the exact entry and also matches, the exact entry wins. -/
theorem exact_match_always_wins_witness :
    find_matching_route "/api/users"
      [{ pattern := "/api/*", process := "api_wildcard", port := 4002 },
       { pattern := "/api/users", process := "api_specific", port := 4001 }] =
      some ("api_specific", 4001) :=
  (exact_match_always_wins
    [{ pattern := "/api/*", process := "api_wildcard", port := 4002 },
     { pattern := "/api/users", process := "api_specific", port := 4001 }]
    "/api/users"
    { pattern := "/api/users", process := "api_specific", port := 4001 }
    (by decide)).2.2

/-- C2: for every route table and request path with no exact match, the
matcher returns the first matching wildcard entry if one exists, else the
first entry with pattern "/", else no match. -/
theorem wildcard_then_default_fallback (route_map : List RouteEntry)
    (path : String) (h : ∀ e ∈ route_map, isExactB path e = false) :
    find_matching_route path route_map =
      optionOr ((route_map.find? (wildMatchB path)).map entryData)
               ((route_map.find? isDefaultB).map entryData) := by
  have := findGo_noExact path route_map h none none
  simpa [find_matching_route, optionOr] using this

/-- C2 witness: with no exact match and no matching wildcard, the path falls
back to the process registered under "/"; the theorem applied to a table
holding a non-matching wildcard and a root route. -/
theorem wildcard_then_default_fallback_witness :
    find_matching_route "/zzz"
      [{ pattern := "/api/*", process := "api", port := 4001 },
       { pattern := "/", process := "frontend", port := 3000 }] =
      some ("frontend", 3000) :=
  (wildcard_then_default_fallback
    [{ pattern := "/api/*", process := "api", port := 4001 },
     { pattern := "/", process := "frontend", port := 3000 }]
    "/zzz" (by decide)).trans (by decide)

/- Properties of the build-time sort. -/

/-- Characterization of "not greater" under the route comparator: either the
left entry is non-wildcard and the right one wildcard, or both have the same
wildcard status and the right pattern is no longer than the left one. -/
theorem routeCmp_not_gt_iff (a b : RouteEntry) :
    ¬routeCmp a b = Ordering.gt ↔
      ((strContains a.pattern '*' = false ∧ strContains b.pattern '*' = true) ∨
       (strContains a.pattern '*' = strContains b.pattern '*' ∧
        strLen b.pattern ≤ strLen a.pattern)) := by
  cases ha : strContains a.pattern '*' <;> cases hb : strContains b.pattern '*' <;>
    simp [routeCmp, ha, hb, Nat.compare_eq_gt, Nat.not_lt]

/-- The route comparator induces a total relation. -/
theorem routeCmp_total (a b : RouteEntry) :
    ¬routeCmp a b = Ordering.gt ∨ ¬routeCmp b a = Ordering.gt := by
  rw [routeCmp_not_gt_iff, routeCmp_not_gt_iff]
  cases ha : strContains a.pattern '*' <;> cases hb : strContains b.pattern '*' <;>
    simp <;> omega

/-- The route comparator induces a transitive relation. -/
theorem routeCmp_trans (a b c : RouteEntry)
    (h1 : ¬routeCmp a b = Ordering.gt) (h2 : ¬routeCmp b c = Ordering.gt) :
    ¬routeCmp a c = Ordering.gt := by
  rw [routeCmp_not_gt_iff] at h1 h2 ⊢
  cases ha : strContains a.pattern '*' <;> cases hb : strContains b.pattern '*' <;>
    cases hc : strContains c.pattern '*' <;> simp [ha, hb, hc] at h1 h2 ⊢ <;> omega

/-- Stable insertion only rearranges: the result is a permutation of consing. -/
theorem insertRoute_perm (x : RouteEntry) (l : List RouteEntry) :
    (insertRoute x l).Perm (x :: l) := by
  induction l with
  | nil => exact List.Perm.refl _
  | cons y ys ih =>
    by_cases h : routeCmp x y = Ordering.gt
    · simp only [insertRoute, h, if_true]
      exact (ih.cons y).trans (List.Perm.swap x y ys)
    · simp only [insertRoute, h, if_false]
      exact List.Perm.refl _

/-- Stable insertion preserves sortedness by the route comparator. -/
theorem insertRoute_pairwise (x : RouteEntry) (l : List RouteEntry)
    (hl : l.Pairwise (fun a b => ¬routeCmp a b = Ordering.gt)) :
    (insertRoute x l).Pairwise (fun a b => ¬routeCmp a b = Ordering.gt) := by
  induction l with
  | nil => simp [insertRoute]
  | cons y ys ih =>
    rcases List.pairwise_cons.mp hl with ⟨hy, hys⟩
    by_cases h : routeCmp x y = Ordering.gt
    · have hyx : ¬routeCmp y x = Ordering.gt := by
        rcases routeCmp_total x y with h' | h'
        · exact absurd h h'
        · exact h'
      simp only [insertRoute, h, if_true]
      refine List.pairwise_cons.mpr ⟨?_, ih hys⟩
      intro z hz
      have hz' : z = x ∨ z ∈ ys := by
        have := (insertRoute_perm x ys).mem_iff.mp hz
        simpa using this
      rcases hz' with rfl | hz'
      · exact hyx
      · exact hy z hz'
    · simp only [insertRoute, h, if_false]
      refine List.pairwise_cons.mpr ⟨?_, hl⟩
      intro z hz
      rcases List.mem_cons.mp hz with rfl | hz'
      · exact h
      · exact routeCmp_trans x y z h (hy z hz')

/-- The build-time sort permutes the emitted entries. -/
theorem sortRoutes_perm (l : List RouteEntry) : (sortRoutes l).Perm l := by
  induction l with
  | nil => exact List.Perm.refl _
  | cons x xs ih => exact (insertRoute_perm x (sortRoutes xs)).trans (ih.cons x)

/-- The build-time sort produces a list sorted by the route comparator. -/
theorem sortRoutes_pairwise (l : List RouteEntry) :
    (sortRoutes l).Pairwise (fun a b => ¬routeCmp a b = Ordering.gt) := by
  induction l with
  | nil => simp [sortRoutes]
  | cons x xs ih => exact insertRoute_pairwise x (sortRoutes xs) ih

/-- Membership in the emitted route list: exactly the entries derived from a
registered (process, route) pair, with the defaulted port. -/
theorem mem_emitRoutes (config : RealmConfig) (e : RouteEntry) :
    e ∈ emitRoutes config ↔
      ∃ p ∈ config.processes, e.pattern ∈ p.2.routes ∧
        e.process = p.1 ∧ e.port = p.2.port.getD 3000 := by
  simp only [emitRoutes, List.mem_flatMap, List.mem_map]
  constructor
  · rintro ⟨p, hp, route, hr, rfl⟩
    exact ⟨p, hp, hr, rfl, rfl⟩
  · rintro ⟨p, hp, hr, hproc, hport⟩
    exact ⟨p, hp, e.pattern, hr, by cases e; simp_all⟩

/-- Membership in the built route table coincides with membership in the
emitted list. -/
theorem mem_build_route_map (config : RealmConfig) (e : RouteEntry) :
    e ∈ build_route_map config ↔
      ∃ p ∈ config.processes, e.pattern ∈ p.2.routes ∧
        e.process = p.1 ∧ e.port = p.2.port.getD 3000 := by
  rw [build_route_map, (sortRoutes_perm (emitRoutes config)).mem_iff]
  exact mem_emitRoutes config e

/-- C3 counterexample: the builder does impose an ordering at build time.
For the two-wildcard configuration, the built table differs from the emitted
(insertion-order) list, and matching against the built table differs from
matching against the unsorted list — so ordering relevant to matching is
applied at build time, not at match time. -/
theorem build_time_sort_counterexample :
    build_route_map cfgSortDemo ≠ emitRoutes cfgSortDemo ∧
    find_matching_route "/api/users/42" (build_route_map cfgSortDemo) ≠
      find_matching_route "/api/users/42" (emitRoutes cfgSortDemo) := by
  decide

/-- C3 (amended): the builder emits one `RouteEntry` per (process, route)
pair with the process's port (default 3000) and then sorts the entries at
build time — non-wildcard patterns first, then descending pattern length;
the match-time tie-breaking is plain first-match over this build-time
order. -/
theorem build_route_map_emits_then_sorts (config : RealmConfig) :
    (build_route_map config).Perm (emitRoutes config) ∧
    (build_route_map config).Pairwise
      (fun a b => ¬routeCmp a b = Ordering.gt) ∧
    ∀ e : RouteEntry, e ∈ build_route_map config ↔
      ∃ p ∈ config.processes, e.pattern ∈ p.2.routes ∧
        e.process = p.1 ∧ e.port = p.2.port.getD 3000 :=
  ⟨sortRoutes_perm (emitRoutes config),
   sortRoutes_pairwise (emitRoutes config),
   fun e => mem_build_route_map config e⟩

/-- C5 counterexample: when two distinct processes register the same literal
pattern "/x", matching "/x" cannot return both registrants; for the process
"b" (port 2) the round trip fails. -/
theorem round_trip_shared_pattern_counterexample :
    ("b",
      { command := "cmd", port := some 2, routes := ["/x"],
        working_directory := none : ProcessConfig }) ∈ cfgShared.processes ∧
    strContains "/x" '*' = false ∧
    find_matching_route "/x" (build_route_map cfgShared) ≠ some ("b", 2) := by
  decide

/-- C5 (amended): the round trip holds for every literal pattern with a
unique registrant: building the table and matching the pattern returns that
process's name and defaulted port. -/
theorem literal_route_round_trip (config : RealmConfig) (name : String)
    (pc : ProcessConfig) (pat : String)
    (hmem : (name, pc) ∈ config.processes)
    (hroute : pat ∈ pc.routes)
    (hlit : strContains pat '*' = false)
    (huniq : ∀ q ∈ config.processes, pat ∈ q.2.routes → q = (name, pc)) :
    find_matching_route pat (build_route_map config) =
      some (name, pc.port.getD 3000) := by
  have hment :
      ({ pattern := pat, process := name, port := pc.port.getD 3000 } :
        RouteEntry) ∈ build_route_map config :=
    (mem_build_route_map config _).mpr ⟨(name, pc), hmem, hroute, rfl, rfl⟩
  have hsome : ((build_route_map config).find? (isExactB pat)).isSome := by
    rw [List.find?_isSome]
    exact ⟨_, hment, by simp [isExactB, hlit]⟩
  obtain ⟨e₀, he₀⟩ := Option.isSome_iff_exists.mp hsome
  have he₀mem := List.mem_of_find?_eq_some he₀
  have he₀p : isExactB pat e₀ = true := List.find?_some he₀
  obtain ⟨q, hq, hqr, hqproc, hqport⟩ :=
    (mem_build_route_map config e₀).mp he₀mem
  have hpat : e₀.pattern = pat := by
    simp [isExactB] at he₀p
    exact he₀p.2
  rw [hpat] at hqr
  have hq' := huniq q hq hqr
  subst hq'
  have hres := findGo_exact pat (build_route_map config) e₀ he₀ none none
  rw [find_matching_route, hres]
  simp only [entryData]
  simp at hqproc hqport
  rw [hqproc, hqport]

/-- C5 witness: for a single process registering the literal "/x" with port
7, the round trip returns that process and port. -/
theorem literal_route_round_trip_witness :
    find_matching_route "/x" (build_route_map cfgSingle) = some ("a", 7) :=
  (literal_route_round_trip cfgSingle "a"
    { command := "cmd", port := some 7, routes := ["/x"],
      working_directory := none }
    "/x" (by decide) (by decide) (by decide) (by decide)).trans (by decide)

/-- An element returned by `getLast?` is a member of the list. -/
theorem mem_of_getLast?_eq_some {α : Type} :
    ∀ {l : List α} {d : α}, l.getLast? = some d → d ∈ l := by
  intro l
  induction l with
  | nil => intro d h; simp at h
  | cons x xs ih =>
    intro d h
    cases xs with
    | nil =>
      simp [List.getLast?] at h
      simp [h]
    | cons y ys =>
      rw [List.getLast?_cons_cons] at h
      exact List.mem_cons_of_mem x (ih h)

/-- Rust semantics: a string ending in a character also contains it. -/
theorem strContains_of_strEndsWith (s : String) (c : Char)
    (h : strEndsWith s c = true) : strContains s c = true := by
  unfold strEndsWith at h
  cases hl : s.data.getLast? with
  | none => rw [hl] at h; simp at h
  | some d =>
    rw [hl] at h
    have hd : d = c := by simpa using h
    subst hd
    have hmem : d ∈ s.data := mem_of_getLast?_eq_some hl
    simpa [strContains] using hmem

/-- In a list pairwise-ordered by `R`, anything satisfying the predicate is
either the first hit of `find?` or related to it by `R`. -/
theorem find?_first_of_pairwise {α : Type} (R : α → α → Prop) (p : α → Bool) :
    ∀ (l : List α), l.Pairwise R → ∀ a, l.find? p = some a →
      ∀ b ∈ l, p b = true → b = a ∨ R a b := by
  intro l
  induction l with
  | nil => intro _ a h; simp at h
  | cons x xs ih =>
    intro hl a h b hb hpb
    rcases List.pairwise_cons.mp hl with ⟨hx, hxs⟩
    by_cases hpx : p x = true
    · rw [List.find?_cons_of_pos _ hpx] at h
      cases h
      rcases List.mem_cons.mp hb with rfl | hb'
      · exact Or.inl rfl
      · exact Or.inr (hx b hb')
    · rw [List.find?_cons_of_neg _ hpx] at h
      rcases List.mem_cons.mp hb with rfl | hb'
      · exact absurd hpb hpx
      · exact ih hxs a h b hb' hpb

/-- C9: on a built route table with no exact match for the path, the matcher
returns a matching wildcard entry of maximal pattern length: the build-time
sort puts longer wildcard patterns first and the matcher keeps the first
matching wildcard. -/
theorem longest_wildcard_wins (config : RealmConfig) (path : String)
    (hnoexact : ∀ e ∈ build_route_map config, isExactB path e = false)
    (e : RouteEntry) (he : e ∈ build_route_map config)
    (hw : wildMatchB path e = true) :
    ∃ e', e' ∈ build_route_map config ∧ wildMatchB path e' = true ∧
      find_matching_route path (build_route_map config) =
        some (e'.process, e'.port) ∧
      ∀ f ∈ build_route_map config, wildMatchB path f = true →
        strLen f.pattern ≤ strLen e'.pattern := by
  have hsome : ((build_route_map config).find? (wildMatchB path)).isSome := by
    rw [List.find?_isSome]
    exact ⟨e, he, hw⟩
  obtain ⟨e', he'⟩ := Option.isSome_iff_exists.mp hsome
  have he'mem := List.mem_of_find?_eq_some he'
  have he'w : wildMatchB path e' = true := List.find?_some he'
  refine ⟨e', he'mem, he'w, ?_, ?_⟩
  · rw [find_matching_route, findGo_noExact path (build_route_map config) hnoexact none none]
    rw [he']
    rfl
  · intro f hf hfw
    have hsorted : (build_route_map config).Pairwise
        (fun a b => ¬routeCmp a b = Ordering.gt) :=
      sortRoutes_pairwise (emitRoutes config)
    have hfirst := find?_first_of_pairwise _ (wildMatchB path)
      (build_route_map config) hsorted e' he' f hf hfw
    rcases hfirst with rfl | hR
    · exact Nat.le_refl _
    · have he'c : strContains e'.pattern '*' = true :=
        strContains_of_strEndsWith _ _ (by
          have := he'w
          simp [wildMatchB] at this
          exact this.1)
      have hfc : strContains f.pattern '*' = true :=
        strContains_of_strEndsWith _ _ (by
          have := hfw
          simp [wildMatchB] at this
          exact this.1)
      rw [routeCmp_not_gt_iff] at hR
      rcases hR with ⟨h1, _⟩ | ⟨_, h2⟩
      · rw [he'c] at h1
        cases h1
      · exact h2

/-- C9 witness: the two-wildcard configuration with the generic route first
in registry order still routes "/api/users/42" to the longer wildcard. -/
theorem longest_wildcard_wins_witness :
    ∃ e', e' ∈ build_route_map cfgSortDemo ∧
      wildMatchB "/api/users/42" e' = true ∧
      find_matching_route "/api/users/42" (build_route_map cfgSortDemo) =
        some (e'.process, e'.port) ∧
      ∀ f ∈ build_route_map cfgSortDemo, wildMatchB "/api/users/42" f = true →
        strLen f.pattern ≤ strLen e'.pattern :=
  longest_wildcard_wins cfgSortDemo "/api/users/42" (by decide)
    { pattern := "/api/users/*", process := "api_users", port := 5001 }
    (by decide) (by decide)

/-- Unfolding of the registry lookup over a cons cell. -/
theorem lookupProc_cons (p : String × ProcessInfo) (rest : Registry)
    (name : String) :
    lookupProc (p :: rest) name =
      if p.1 == name then some p.2 else lookupProc rest name := by
  simp only [lookupProc, List.find?]
  cases hb : (p.1 == name) <;> simp [hb]

/-- Updating a present name and looking it up again yields the new info. -/
theorem lookupProc_updateProc (reg : Registry) (name : String)
    (i j : ProcessInfo) (h : lookupProc reg name = some j) :
    lookupProc (updateProc reg name i) name = some i := by
  induction reg with
  | nil => simp [lookupProc, List.find?] at h
  | cons p rest ih =>
    rw [lookupProc_cons] at h
    by_cases hb : (p.1 == name) = true
    · have hupd : updateProc (p :: rest) name i =
          (p.1, i) :: updateProc rest name i := by
        simp only [updateProc, List.map_cons]
        rw [if_pos hb]
      rw [hupd, lookupProc_cons]
      simp [hb]
    · have hupd : updateProc (p :: rest) name i =
          p :: updateProc rest name i := by
        simp only [updateProc, List.map_cons]
        rw [if_neg hb]
      rw [if_neg hb] at h
      rw [hupd, lookupProc_cons, if_neg hb]
      exact ih h

/-- C4 (refutation of the liveness conjunct): for the registry whose only
entry holds a handle to a child the OS reports as dead (`alive = false`)
with its stored pid 4242 still nonzero, `is_running` returns `true`: the
code checks only that `child.id()` is nonzero and never consults the OS. -/
theorem is_running_ignores_os_liveness :
    is_running regDeadChild "api" = true ∧
    (lookupProc regDeadChild "api").bind ProcessInfo.child =
      some { id := 4242, alive := false } := by
  decide

/-- C6: stopping a registered process with no handle succeeds and changes
nothing; starting a registered process that already has a handle succeeds,
attempts no spawn, and changes nothing. -/
theorem lifecycle_idempotence (killOk waitOk : Bool) (spawn : Option Child)
    (regS regR : Registry) (nameS nameR : String)
    (infoS infoR : ProcessInfo)
    (hS : lookupProc regS nameS = some infoS) (hSc : infoS.child = none)
    (hR : lookupProc regR nameR = some infoR)
    (hRc : infoR.child.isSome = true) :
    stop_process killOk waitOk regS nameS = (Except.ok (), regS) ∧
    start_process spawn regR nameR = (Except.ok (), regR, false) := by
  constructor
  · simp [stop_process, hS, hSc]
  · simp [start_process, hR, hRc]

/-- C6 witness: the theorem applied to a one-process stopped registry and a
one-process running registry, with concrete kill/wait/spawn outcomes. -/
theorem lifecycle_idempotence_witness :
    stop_process true true regStopped "a" = (Except.ok (), regStopped) ∧
    start_process none regRunning "a" = (Except.ok (), regRunning, false) :=
  lifecycle_idempotence true true none regStopped regRunning "a" "a"
    infoNoChild infoWithChild (by decide) (by decide) (by decide) (by decide)

/-- C7: starting a registered, handle-less process whose command splits into
no whitespace-separated parts returns the invalid-command error, attempts no
spawn, and leaves the registry (and its handle-less entry) unchanged. -/
theorem empty_command_start_fails (spawn : Option Child) (reg : Registry)
    (name : String) (info : ProcessInfo)
    (hlook : lookupProc reg name = some info)
    (hchild : info.child = none)
    (hcmd : split_whitespace info.config.command = []) :
    start_process spawn reg name =
      (Except.error (ProcError.emptyCommand name), reg, false) := by
  simp [start_process, hlook, hchild, hcmd]

/-- C7 witness: the theorem applied to the registry whose only process has
the empty command string, with a spawn outcome on offer that is never used. -/
theorem empty_command_start_fails_witness :
    start_process (some { id := 9, alive := true }) regEmptyCmd "bad" =
      (Except.error (ProcError.emptyCommand "bad"), regEmptyCmd, false) :=
  empty_command_start_fails (some { id := 9, alive := true }) regEmptyCmd
    "bad" infoEmptyCmd (by decide) (by decide) (by decide)

/-- C8: `start_all` and `stop_all` return success for every registry and
every outcome of the per-process OS operations; and a per-process failure
does not abort the iteration: in the registry whose first process fails to
start with an invalid-command error, the second process still gets spawned. -/
theorem bulk_operations_always_succeed :
    (∀ (spawns : Nat → Option Child) (reg : Registry),
        (start_all spawns reg).1 = Except.ok ()) ∧
    (∀ (ora : Nat → Bool × Bool) (reg : Registry),
        (stop_all ora reg).1 = Except.ok ()) ∧
    (start_process (some { id := 9, alive := true }) regBulk "bad").1 =
      Except.error (ProcError.emptyCommand "bad") ∧
    (lookupProc
        (start_all (fun _ => some { id := 9, alive := true }) regBulk).2
        "good").bind ProcessInfo.child = some { id := 9, alive := true } := by
  exact ⟨fun _ _ => rfl, fun _ _ => rfl, rfl, by decide⟩

/-- C10: stopping a registered process with a live handle clears the handle
and returns success whatever the kill and wait outcomes are — the OS errors
are discarded and never reach the caller — and the entry is handle-less
afterwards. -/
theorem stop_clears_handle_discards_errors (killOk waitOk : Bool)
    (reg : Registry) (name : String) (info : ProcessInfo) (c : Child)
    (hlook : lookupProc reg name = some info)
    (hchild : info.child = some c) :
    stop_process killOk waitOk reg name =
      (Except.ok (), updateProc reg name { info with child := none }) ∧
    (lookupProc (updateProc reg name { info with child := none }) name).bind
      ProcessInfo.child = none := by
  constructor
  · simp [stop_process, hlook, hchild]
  · rw [lookupProc_updateProc reg name _ info hlook]
    rfl

/-- C10 witness: the theorem applied to the running one-process registry
with both the kill and the wait reported as failing. -/
theorem stop_clears_handle_discards_errors_witness :
    stop_process false false regRunning "a" =
      (Except.ok (), updateProc regRunning "a"
        { infoWithChild with child := none }) ∧
    (lookupProc (updateProc regRunning "a"
        { infoWithChild with child := none }) "a").bind
      ProcessInfo.child = none :=
  stop_clears_handle_discards_errors false false regRunning "a" infoWithChild
    { id := 7, alive := true } (by decide) (by decide)
